import Mathlib

/-!
Verification development for the database-backed Celery Beat scheduler
(`celery_app/scheduler.py`), its admin service (`app/services/task_scheduler.py`)
and the persisted models (`app/models/models.py`).

Shallow embedding conventions:
* instants and durations are rationals, measured in seconds (the code works
  with timezone-aware datetimes and float seconds);
* the two celery schedule classes (`schedules.schedule` for fixed intervals
  and `schedules.crontab`) are external library collaborators; they are
  embedded by their documented `is_due` algorithm, with the crontab's
  calendar computation (`remaining_estimate`, i.e. "next matching instant
  after t") abstracted as a function `ℚ → ℚ`;
* nullable database columns are `Option`s; database tables are association
  lists keyed by the unique column the code queries on;
* the in-place mutation of the shared `task_model` object performed by
  `DatabaseScheduleEntry.__next__` is modelled by threading the current
  value of that shared object explicitly.
-/

/-- The `period` column of `IntervalSchedule` (`days/hours/minutes/seconds/microseconds`). -/
inductive Period where
  | days
  | hours
  | minutes
  | seconds
  | microseconds
deriving DecidableEq, Repr

/-- Seconds in one unit of the period, as used by `timedelta(**{period: every})`. -/
def Period.unitSeconds : Period → ℚ
  | .days => 86400
  | .hours => 3600
  | .minutes => 60
  | .seconds => 1
  | .microseconds => 1 / 1000000

/-- Row of `celery_interval_schedule` (`IntervalSchedule` in `models.py`). -/
structure IntervalSchedule where
  id : Nat
  every : Nat
  period : Period
deriving DecidableEq, Repr

/-- The `IntervalSchedule.schedule` property: the total seconds of
`timedelta(**{self.period: self.every})`, i.e. the run-every duration of the
celery `schedule` object it returns. -/
def IntervalSchedule.runEverySeconds (i : IntervalSchedule) : ℚ :=
  i.every * i.period.unitSeconds

/-- Row of `celery_crontab_schedule` (`CrontabSchedule` in `models.py`).
The five pattern columns and the timezone are carried as data; the calendar
semantics of the celery `crontab` object built by the `schedule` property is
abstracted as `nextAfter t` = the first instant strictly handled by
`remaining_estimate(t)` (celery: `t + remaining_estimate(t) - elapsed`), i.e.
the next instant matching the cron pattern after `t`. -/
structure CrontabSchedule where
  id : Nat
  minute : String
  hour : String
  day_of_week : String
  day_of_month : String
  month_of_year : String
  timezone : String
  nextAfter : ℚ → ℚ

/-- The resolved celery schedule object held by a `DatabaseScheduleEntry`:
either a fixed-interval `schedules.schedule(timedelta)` with its run-every
duration in seconds, or a `schedules.crontab` abstracted by its
next-matching-instant function. -/
inductive CelerySchedule where
  | interval (runEvery : ℚ)
  | crontab (nextAfter : ℚ → ℚ)

/-- Celery's `is_due(last_run_at)` evaluated at instant `now`, returning
`(is_due, next_time_to_run)`.

For `schedules.schedule`: `remaining = max(last_run_at + run_every - now, 0)`;
due iff `remaining == 0`, in which case `next` is the full period, else
`next = remaining`.

For `schedules.crontab`: `remaining = max(nextAfter last_run_at - now, 0)`;
due iff `remaining == 0`, in which case `next` is recomputed from `now`
(`max(nextAfter now - now, 0)`), else `next = remaining`. -/
def CelerySchedule.is_due : CelerySchedule → ℚ → ℚ → Bool × ℚ
  | .interval runEvery, last_run_at, now =>
    let remaining := max (last_run_at + runEvery - now) 0
    if remaining = 0 then (true, runEvery) else (false, remaining)
  | .crontab nextAfter, last_run_at, now =>
    let remaining := max (nextAfter last_run_at - now) 0
    if remaining = 0 then (true, max (nextAfter now - now) 0) else (false, remaining)

/-- Row of `celery_periodic_task` (`PeriodicTask` in `models.py`), restricted
to the columns the scheduler core and the admin service read or write.
`interval_id` / `crontab_id` are the raw foreign-key columns; `interval` /
`crontab` are the prefetched related rows. -/
structure PeriodicTask where
  id : Nat
  name : String
  task : String
  interval_id : Option Nat
  crontab_id : Option Nat
  interval : Option IntervalSchedule
  crontab : Option CrontabSchedule
  args : String
  kwargs : String
  queue : Option String
  priority : Option Int
  expires : Option ℚ
  one_off : Bool
  start_time : Option ℚ
  enabled : Bool
  last_run_at : Option ℚ
  total_run_count : Nat
  description : Option String

/-- Options dict built by `DatabaseScheduleEntry.__init__` (lines 60-67):
`queue` is added only when truthy (non-empty string), `priority` when not
None, `expires` when truthy (a datetime is truthy iff not None). -/
structure EntryOptions where
  queue : Option String
  priority : Option Int
  expires : Option ℚ
deriving DecidableEq, Repr

/-- Builds the options dict of `DatabaseScheduleEntry.__init__`. -/
def PeriodicTask.buildOptions (m : PeriodicTask) : EntryOptions where
  queue := match m.queue with
    | some q => if q = "" then none else some q
    | none => none
  priority := m.priority
  expires := m.expires

/-- Schedule selection of `DatabaseScheduleEntry.__init__` (lines 47-54):
prefer the interval relation, then the crontab relation, else a default
60-second interval schedule. -/
def PeriodicTask.selectSchedule (m : PeriodicTask) : CelerySchedule :=
  match m.interval with
  | some i => .interval i.runEverySeconds
  | none =>
    match m.crontab with
    | some c => .crontab c.nextAfter
    | none => .interval 60

/-- The `last_run_at` normalisation of `DatabaseScheduleEntry.__init__`
(lines 69-73): a null `last_run_at` is overwritten, on the shared model
object, with `now - 1 day`. -/
def PeriodicTask.normalizeLastRun (m : PeriodicTask) (now : ℚ) : PeriodicTask :=
  match m.last_run_at with
  | none => { m with last_run_at := some (now - 86400) }
  | some _ => m

/-- Runtime entry built by `DatabaseScheduleEntry.__init__`: the fields the
celery `ScheduleEntry` base class stores via `super().__init__`, plus the
reference to the shared `task_model`. -/
structure DatabaseScheduleEntry where
  task_model : PeriodicTask
  name : String
  task : String
  schedule : CelerySchedule
  options : EntryOptions
  last_run_at : ℚ
  total_run_count : Nat

/-- Embeds `DatabaseScheduleEntry.__init__(task_model)` called at instant
`now` (the constructor reads the clock only to default a null
`last_run_at`). The returned entry's `task_model` is the (possibly mutated)
shared model object; after normalisation `last_run_at` is always set, so the
`0` fallback below is unreachable. -/
def DatabaseScheduleEntry.init (m : PeriodicTask) (now : ℚ) : DatabaseScheduleEntry :=
  let m' := m.normalizeLastRun now
  { task_model := m'
    name := m'.name
    task := m'.task
    schedule := m'.selectSchedule
    options := m'.buildOptions
    last_run_at := match m'.last_run_at with
      | some t => t
      | none => 0
    total_run_count := m'.total_run_count }

/-- Embeds `DatabaseScheduleEntry.__next__` executed at instant `now`.
`self.task_model` is a shared, mutated-in-place object, so it is threaded
explicitly: `m` is its current value and the first component of the result
is its new value (`last_run_at = now`, `total_run_count + 1`); the second
component is the freshly constructed successor entry. The original entry's
own stored attributes are never reassigned. -/
def DatabaseScheduleEntry.next_step (m : PeriodicTask) (now : ℚ) :
    PeriodicTask × DatabaseScheduleEntry :=
  let m' := { m with
    last_run_at := some now
    total_run_count := m.total_run_count + 1 }
  (m', DatabaseScheduleEntry.init m' now)

/-- Step 5 of `DatabaseScheduleEntry.is_due` (lines 131-143): delegate to the
celery schedule's `is_due`, then apply the crontab tight-window gate: when
the raw schedule is due but `next_time_to_run > 1` second, report not due
with a wait of `min(next_time_to_run, 5)`. -/
def DatabaseScheduleEntry.scheduleCheck (e : DatabaseScheduleEntry) (now : ℚ) : Bool × ℚ :=
  let r := e.schedule.is_due e.last_run_at now
  if e.task_model.crontab.isSome ∧ r.1 = true ∧ 1 < r.2 then
    (false, min r.2 5)
  else
    r

/-- Step 4 of `DatabaseScheduleEntry.is_due` (lines 126-129): a one-off task
that has already run is not due, recheck in one day. -/
def DatabaseScheduleEntry.oneOffGate (e : DatabaseScheduleEntry) (now : ℚ) : Bool × ℚ :=
  if e.task_model.one_off = true ∧ 0 < e.task_model.total_run_count then
    (false, 86400)
  else
    e.scheduleCheck now

/-- Step 3 of `DatabaseScheduleEntry.is_due` (lines 118-124): an expired task
is not due, recheck in one day. -/
def DatabaseScheduleEntry.expiresGate (e : DatabaseScheduleEntry) (now : ℚ) : Bool × ℚ :=
  match e.task_model.expires with
  | some ex => if ex ≤ now then (false, 86400) else e.oneOffGate now
  | none => e.oneOffGate now

/-- Step 2 of `DatabaseScheduleEntry.is_due` (lines 108-116): before the
start time the task is not due, recheck in `max(1, time remaining)`. -/
def DatabaseScheduleEntry.startGate (e : DatabaseScheduleEntry) (now : ℚ) : Bool × ℚ :=
  match e.task_model.start_time with
  | some st => if now < st then (false, max 1 (st - now)) else e.expiresGate now
  | none => e.expiresGate now

/-- Embeds `DatabaseScheduleEntry.is_due` evaluated at instant `now`: the
disabled gate (step 1, lines 104-106) followed by the start-time, expiry and
one-off gates and the schedule delegation with the crontab tight-window
gate. -/
def DatabaseScheduleEntry.is_due (e : DatabaseScheduleEntry) (now : ℚ) : Bool × ℚ :=
  if e.task_model.enabled = false then (false, 5) else e.startGate now

/-- The persisted store the scheduler talks to: the `celery_periodic_task`
table (rows keyed by the unique `name` column) and the singleton
`celery_periodic_task_changed` marker row (`last_update`, or `none` when the
row is absent, as read by `_get_changed_timestamp`). -/
structure Db where
  tasks : List PeriodicTask
  marker : Option ℚ

/-- Lookup by unique name, as `PeriodicTask.get_or_none(name=...)` does. -/
def Db.lookup (db : Db) (n : String) : Option PeriodicTask :=
  db.tasks.find? (fun t => t.name = n)

/-- Applies `f` to the first element satisfying `p`, leaving the rest
unchanged (the row-update shape of a save against a unique key). -/
def updateFirst (p : α → Bool) (f : α → α) : List α → List α
  | [] => []
  | x :: xs => if p x then f x :: xs else x :: updateFirst p f xs

/-- Embeds `DatabaseScheduler._save_entry` (lines 238-252): look the task
row up by the entry's name and, when present, overwrite its `last_run_at`
and `total_run_count` with the entry's shared model's values. The row fetch
and the write sit inside a `try/except Exception` that logs and SWALLOWS
the error, so a failing write (`writeFails e.name = true`) leaves the store
unchanged and no exception reaches the caller. (Only `_init_db`, line 242,
sits outside that inner `try`.) -/
def Db.save_entry (writeFails : String → Bool) (db : Db) (e : DatabaseScheduleEntry) : Db :=
  if writeFails e.name then
    db
  else
    { db with
      tasks := updateFirst (fun t => t.name = e.name)
        (fun t => { t with
          last_run_at := e.task_model.last_run_at
          total_run_count := e.task_model.total_run_count }) db.tasks }

/-- Embeds `DatabaseScheduler._load_entries_from_db` at instant `now`:
query the enabled rows and build a `DatabaseScheduleEntry` for each, keyed
by task name. -/
def Db.load_entries (db : Db) (now : ℚ) : List (String × DatabaseScheduleEntry) :=
  (db.tasks.filter (fun t => t.enabled)).map
    (fun t => (t.name, DatabaseScheduleEntry.init t now))

/-- Mutable state of `DatabaseScheduler`: the in-memory entry table
(`_schedule`), the dirty-name set (`_dirty`, modelled as a list whose head
is the next `set.pop()`), the cached change-marker baseline
(`_last_timestamp`) and the first-read flag (`_initial_read`). -/
structure DatabaseScheduler where
  sched_table : List (String × DatabaseScheduleEntry)
  dirty : List String
  last_timestamp : Option ℚ
  initial_read : Bool

/-- Lookup in the in-memory entry table (`self._schedule.get(name)`). -/
def tableGet (tbl : List (String × DatabaseScheduleEntry)) (n : String) :
    Option DatabaseScheduleEntry :=
  (tbl.find? (fun p => p.1 = n)).map (fun p => p.2)

/-- Embeds `DatabaseScheduler.schedule_changed` (lines 261-278): read the
live marker `ts`; report a change when `ts` is set and strictly newer than
the cached baseline (a missing baseline compares `ts > ts`, i.e. never);
only on the no-change path is the cached baseline overwritten with `ts`.
Returns the flag and the updated scheduler state. -/
def DatabaseScheduler.schedule_changed (s : DatabaseScheduler) (db : Db) :
    Bool × DatabaseScheduler :=
  match db.marker, s.last_timestamp with
  | some t, some base =>
    if base < t then (true, s) else (false, { s with last_timestamp := some t })
  | some t, none => (false, { s with last_timestamp := some t })
  | none, _ => (false, { s with last_timestamp := none })

/-- One iteration of the `while self._dirty` loop of
`DatabaseScheduler.sync` (lines 337-349), with the popped order fixed to the
list order. A name with no table entry is dropped and the loop continues.
Otherwise `self._run_async(self._save_entry(entry))` runs; it has two
distinct failure modes: a DB write failure is caught and swallowed INSIDE
`_save_entry` (`writeFails`, folded into `Db.save_entry`), so the loop just
continues with the popped name dropped and the store unchanged; only an
exception escaping `_save_entry` — e.g. `_init_db` (line 242, outside its
inner `try`) or the event-loop call itself — reaches the `except Exception`
branch of `sync` (`loopFails name = true`), which re-adds the popped name
to the dirty set and then BREAKS out of the loop, leaving every remaining
name dirty and unsynced. Returns the final dirty set and database. -/
def syncLoop (writeFails loopFails : String → Bool)
    (tbl : List (String × DatabaseScheduleEntry)) :
    List String → Db → List String × Db
  | [], db => ([], db)
  | n :: rest, db =>
    match tableGet tbl n with
    | none => syncLoop writeFails loopFails tbl rest db
    | some e =>
      if loopFails n then
        (n :: rest, db)
      else
        syncLoop writeFails loopFails tbl rest (Db.save_entry writeFails db e)

/-- Embeds `DatabaseScheduler.sync`: flush the dirty set against the current
in-memory table (`writeFails` tells which names' writes fail inside
`_save_entry`, `loopFails` which names' save calls raise into `sync`
itself). -/
def DatabaseScheduler.sync (writeFails loopFails : String → Bool)
    (s : DatabaseScheduler) (db : Db) :
    DatabaseScheduler × Db :=
  let r := syncLoop writeFails loopFails s.sched_table s.dirty db
  ({ s with dirty := r.1 }, r.2)

/-- Embeds the `DatabaseScheduler.schedule` property (lines 280-307) read at
instant `now`: decide whether a reload is needed (first read, else
`schedule_changed()`); if so, first `sync()` the dirty set, then rebuild the
table from the database and refresh the cached baseline from the live
marker. Returns the post-read scheduler state and database. -/
def DatabaseScheduler.schedule_property (writeFails loopFails : String → Bool) (now : ℚ)
    (s : DatabaseScheduler) (db : Db) : DatabaseScheduler × Db :=
  let step :=
    if s.initial_read then
      (true, { s with initial_read := false })
    else
      s.schedule_changed db
  if step.1 then
    let synced := step.2.sync writeFails loopFails db
    ({ synced.1 with
        sched_table := synced.2.load_entries now
        last_timestamp := synced.2.marker },
      synced.2)
  else
    (step.2, db)

/-- The keyword arguments `TaskSchedulerService.update_periodic_task`
receives: its only caller (the admin `PUT /tasks/{id}` route) forwards
`PeriodicTaskUpdate.model_dump(exclude_unset=True)`, so each field is either
absent (outer `none`) or a value to assign; `interval_id` / `crontab_id` are
nullable, hence `Option (Option Nat)`. `last_run_at` and `total_run_count`
are not part of that schema. -/
structure TaskUpdate where
  name : Option String
  task : Option String
  interval_id : Option (Option Nat)
  crontab_id : Option (Option Nat)
  args : Option String
  kwargs : Option String
  queue : Option (Option String)
  priority : Option (Option Int)
  expires : Option (Option ℚ)
  one_off : Option Bool
  start_time : Option (Option ℚ)
  enabled : Option Bool
  description : Option (Option String)

/-- Embeds `TaskSchedulerService.update_periodic_task` applied to a fetched
task row (lines 195-217): detect a schedule change by comparing the
provided `interval_id` / `crontab_id` against the row's current foreign
keys, then assign every provided field, and finally reset `last_run_at` to
null when the schedule changed. (JSON serialisation of `args`/`kwargs` and
the change-marker bump are outside the row transformation modelled here.) -/
def TaskSchedulerService.update_periodic_task (t : PeriodicTask) (u : TaskUpdate) :
    PeriodicTask :=
  let schedule_changed : Bool :=
    (match u.interval_id with
      | some v => decide (v ≠ t.interval_id)
      | none => false) ||
    (match u.crontab_id with
      | some v => decide (v ≠ t.crontab_id)
      | none => false)
  let t' : PeriodicTask := { t with
    name := u.name.getD t.name
    task := u.task.getD t.task
    interval_id := u.interval_id.getD t.interval_id
    crontab_id := u.crontab_id.getD t.crontab_id
    args := u.args.getD t.args
    kwargs := u.kwargs.getD t.kwargs
    queue := u.queue.getD t.queue
    priority := u.priority.getD t.priority
    expires := u.expires.getD t.expires
    one_off := u.one_off.getD t.one_off
    start_time := u.start_time.getD t.start_time
    enabled := u.enabled.getD t.enabled
    description := u.description.getD t.description }
  if schedule_changed then { t' with last_run_at := none } else t'

/-- Row of `celery_task_result` (`TaskResult` in `models.py`), serialized
result payloads kept as opaque optional strings. -/
structure TaskResult where
  task_id : String
  task_name : Option String
  task_args : Option String
  task_kwargs : Option String
  status : String
  result : Option String
  traceback : Option String
  date_created : ℚ
  date_done : Option ℚ
  worker : Option String
deriving DecidableEq, Repr

/-- Lookup in the `celery_task_result` table by unique `task_id`. -/
def findResult (rows : List TaskResult) (tid : String) : Option TaskResult :=
  rows.find? (fun r => r.task_id = tid)

/-- Embeds `TaskSchedulerService.save_task_result` (lines 262-295) at
instant `now`, over the result table. `get_or_create` on `task_id`: when no
row exists, a row is created from the defaults (status as given,
`date_done` left null). When a row exists, its status / result / traceback
are overwritten and `date_done` is set to now only when the new status is
SUCCESS or FAILURE. `result` is the already-serialized payload
(`json.dumps(result) if result else None`). -/
def TaskSchedulerService.save_task_result (rows : List TaskResult)
    (tid : String) (tname : String) (status : String)
    (result traceback args kwargs worker : Option String) (now : ℚ) :
    List TaskResult :=
  match findResult rows tid with
  | none =>
    rows ++ [{ task_id := tid
               task_name := some tname
               task_args := args
               task_kwargs := kwargs
               status := status
               result := result
               traceback := traceback
               date_created := now
               date_done := none
               worker := worker }]
  | some _ =>
    updateFirst (fun r => r.task_id = tid)
      (fun r =>
        let r' := { r with status := status, result := result, traceback := traceback }
        if status = "SUCCESS" ∨ status = "FAILURE" then
          { r' with date_done := some now }
        else
          r')
      rows

/-- A concrete enabled periodic-task row with a 10-second interval schedule,
used to instantiate witnesses. -/
def samplePeriodicTask : PeriodicTask where
  id := 1
  name := "ping"
  task := "noop"
  interval_id := some 1
  crontab_id := none
  interval := some { id := 1, every := 10, period := Period.seconds }
  crontab := none
  args := "[]"
  kwargs := "{}"
  queue := none
  priority := none
  expires := none
  one_off := false
  start_time := none
  enabled := true
  last_run_at := some 0
  total_run_count := 0
  description := none

/-- When every pre-schedule gate passes (enabled, start time reached, not
expired, one-off not spent), `is_due` reduces to the schedule delegation
with the crontab tight-window gate. -/
lemma gates_pass_is_due (e : DatabaseScheduleEntry) (now : ℚ)
    (hen : e.task_model.enabled = true)
    (hst : ∀ st, e.task_model.start_time = some st → st ≤ now)
    (hex : ∀ ex, e.task_model.expires = some ex → now < ex)
    (hoo : e.task_model.one_off = false ∨ e.task_model.total_run_count = 0) :
    e.is_due now = e.scheduleCheck now := by
  have h5 : ¬ (e.task_model.one_off = true ∧ 0 < e.task_model.total_run_count) := by
    rcases hoo with h | h
    · rintro ⟨h1, -⟩
      rw [h] at h1
      exact Bool.false_ne_true h1
    · rintro ⟨-, h2⟩
      omega
  have hone : e.oneOffGate now = e.scheduleCheck now := by
    rw [DatabaseScheduleEntry.oneOffGate, if_neg h5]
  have hexp : e.expiresGate now = e.scheduleCheck now := by
    cases h2 : e.task_model.expires with
    | none => simp only [DatabaseScheduleEntry.expiresGate, h2]; exact hone
    | some ex =>
      simp only [DatabaseScheduleEntry.expiresGate, h2]
      rw [if_neg (not_le.2 (hex ex h2))]
      exact hone
  rw [DatabaseScheduleEntry.is_due, if_neg (by simp [hen])]
  cases h1 : e.task_model.start_time with
  | none => simp only [DatabaseScheduleEntry.startGate, h1]; exact hexp
  | some st =>
    simp only [DatabaseScheduleEntry.startGate, h1]
    rw [if_neg (not_lt.2 (hst st h1))]
    exact hexp

/-- C6: for every Job Entry whose definition has `enabled = false`,
`is_due()` returns exactly `(false, 5.0)`, regardless of the schedule type,
`last_fired` value, start time, expiry, or one-off state. -/
theorem is_due_disabled (e : DatabaseScheduleEntry) (now : ℚ)
    (h : e.task_model.enabled = false) :
    e.is_due now = (false, 5) := by
  rw [DatabaseScheduleEntry.is_due, if_pos h]

/-- Witness for C6 at a concrete disabled entry. -/
theorem is_due_disabled_witness :
    (DatabaseScheduleEntry.init { samplePeriodicTask with enabled := false } 123).task_model.enabled
      = false ∧
    (DatabaseScheduleEntry.init { samplePeriodicTask with enabled := false } 123).is_due 456
      = (false, 5) :=
  ⟨rfl, is_due_disabled _ 456 rfl⟩

/-- C10: a Job Definition row referencing neither an interval nor a crontab
schedule is not skipped: its entry gets the default fixed 60-second interval
schedule, and (when enabled) the row still yields an entry in the loaded
table. -/
theorem no_schedule_gets_default_60s (m : PeriodicTask) (db : Db) (now : ℚ)
    (hint : m.interval = none) (hcr : m.crontab = none) :
    (DatabaseScheduleEntry.init m now).schedule = CelerySchedule.interval 60 ∧
    (m.enabled = true → m ∈ db.tasks →
      (m.name, DatabaseScheduleEntry.init m now) ∈ db.load_entries now) := by
  constructor
  · show (m.normalizeLastRun now).selectSchedule = CelerySchedule.interval 60
    cases h : m.last_run_at with
    | none => simp [PeriodicTask.normalizeLastRun, h, PeriodicTask.selectSchedule, hint, hcr]
    | some t => simp [PeriodicTask.normalizeLastRun, h, PeriodicTask.selectSchedule, hint, hcr]
  · intro hen hm
    refine List.mem_map.2 ⟨m, List.mem_filter.2 ⟨hm, by simp [hen]⟩, rfl⟩

/-- A concrete enabled row that references neither schedule kind. -/
def noScheduleTask : PeriodicTask :=
  { samplePeriodicTask with interval := none, interval_id := none }

/-- A one-row database holding `noScheduleTask`. -/
def noScheduleDb : Db := { tasks := [noScheduleTask], marker := none }

/-- Witness for C10 at a concrete schedule-less row. -/
theorem no_schedule_gets_default_60s_witness :
    noScheduleTask.interval = none ∧ noScheduleTask.crontab = none ∧
    (DatabaseScheduleEntry.init noScheduleTask 10).schedule = CelerySchedule.interval 60 ∧
    (noScheduleTask.name, DatabaseScheduleEntry.init noScheduleTask 10) ∈
      noScheduleDb.load_entries 10 :=
  ⟨rfl, rfl,
    (no_schedule_gets_default_60s noScheduleTask noScheduleDb 10 rfl rfl).1,
    (no_schedule_gets_default_60s noScheduleTask noScheduleDb 10 rfl rfl).2 rfl
      (List.mem_singleton.2 rfl)⟩

/-- C1: for every Job Entry whose definition references a crontab schedule,
`is_due()` reports due only when the raw cron schedule reports due AND the
computed seconds-until-next-run is at most 1; and whenever the raw cron
schedule reports due but that wait exceeds 1 second (and the earlier gates
pass), `is_due()` reports not-due with the remaining wait capped at 5
seconds. -/
theorem is_due_crontab_tight_window (e : DatabaseScheduleEntry) (now : ℚ)
    (nextf : ℚ → ℚ)
    (_hsched : e.schedule = CelerySchedule.crontab nextf)
    (hcr : e.task_model.crontab.isSome = true)
    (hen : e.task_model.enabled = true)
    (hst : ∀ st, e.task_model.start_time = some st → st ≤ now)
    (hex : ∀ ex, e.task_model.expires = some ex → now < ex)
    (hoo : e.task_model.one_off = false ∨ e.task_model.total_run_count = 0) :
    ((e.is_due now).1 = true →
      (e.schedule.is_due e.last_run_at now).1 = true ∧
      (e.schedule.is_due e.last_run_at now).2 ≤ 1) ∧
    ((e.schedule.is_due e.last_run_at now).1 = true →
      1 < (e.schedule.is_due e.last_run_at now).2 →
      e.is_due now = (false, min (e.schedule.is_due e.last_run_at now).2 5)) := by
  have hred := gates_pass_is_due e now hen hst hex hoo
  constructor
  · intro hdue
    rw [hred] at hdue
    rw [DatabaseScheduleEntry.scheduleCheck] at hdue
    split at hdue
    · exact absurd hdue (by simp)
    · rename_i hcond
      refine ⟨hdue, ?_⟩
      by_contra hgt
      exact hcond ⟨hcr, hdue, lt_of_not_le hgt⟩
  · intro hdue hgt
    rw [hred, DatabaseScheduleEntry.scheduleCheck, if_pos ⟨hcr, hdue, hgt⟩]

/-- A concrete crontab row whose celery pattern semantics fires at minute
boundaries 60 and 120 (all instants before 60 map to 60, later ones to
120). -/
def sampleCrontab : CrontabSchedule where
  id := 1
  minute := "*"
  hour := "*"
  day_of_week := "*"
  day_of_month := "*"
  month_of_year := "*"
  timezone := "Asia/Shanghai"
  nextAfter := fun t => if t < 60 then 60 else 120

/-- A concrete enabled crontab-scheduled row, last fired at instant 0. -/
def sampleCrontabTask : PeriodicTask :=
  { samplePeriodicTask with
    interval_id := none
    interval := none
    crontab_id := some 1
    crontab := some sampleCrontab }

/-- Witness for C1: at instant 60 the raw crontab is due with a 60-second
wait until the next minute boundary, so the entry reports not-due with a
5-second recheck. -/
theorem is_due_crontab_tight_window_witness :
    ((DatabaseScheduleEntry.init sampleCrontabTask 60).schedule.is_due
        (DatabaseScheduleEntry.init sampleCrontabTask 60).last_run_at 60).1 = true ∧
    1 < ((DatabaseScheduleEntry.init sampleCrontabTask 60).schedule.is_due
        (DatabaseScheduleEntry.init sampleCrontabTask 60).last_run_at 60).2 ∧
    (DatabaseScheduleEntry.init sampleCrontabTask 60).is_due 60
      = (false,
          min ((DatabaseScheduleEntry.init sampleCrontabTask 60).schedule.is_due
            (DatabaseScheduleEntry.init sampleCrontabTask 60).last_run_at 60).2 5) := by
  have hdue : ((DatabaseScheduleEntry.init sampleCrontabTask 60).schedule.is_due
      (DatabaseScheduleEntry.init sampleCrontabTask 60).last_run_at 60).1 = true := by
    norm_num [DatabaseScheduleEntry.init, PeriodicTask.normalizeLastRun,
      sampleCrontabTask, samplePeriodicTask, PeriodicTask.selectSchedule, sampleCrontab,
      CelerySchedule.is_due]
  have hgt : 1 < ((DatabaseScheduleEntry.init sampleCrontabTask 60).schedule.is_due
      (DatabaseScheduleEntry.init sampleCrontabTask 60).last_run_at 60).2 := by
    norm_num [DatabaseScheduleEntry.init, PeriodicTask.normalizeLastRun,
      sampleCrontabTask, samplePeriodicTask, PeriodicTask.selectSchedule, sampleCrontab,
      CelerySchedule.is_due]
  refine ⟨hdue, hgt, ?_⟩
  exact (is_due_crontab_tight_window (DatabaseScheduleEntry.init sampleCrontabTask 60) 60
      sampleCrontab.nextAfter rfl rfl rfl
      (by intro st h; cases h) (by intro ex h; cases h) (Or.inl rfl)).2 hdue hgt

/-- A two-day interval row with a null `last_run_at`. -/
def twoDayTask : PeriodicTask :=
  { samplePeriodicTask with
    interval_id := some 2
    interval := some { id := 2, every := 2, period := Period.days }
    last_run_at := none }

/-- Counterexample to C2: a two-day interval job with a null `last_fired`
and every gate passing is NOT immediately due on its first `is_due()` — the
null is replaced by "one day ago", not "one full period ago", so a full
day of waiting remains. -/
theorem null_last_run_not_due_for_long_interval :
    twoDayTask.last_run_at = none ∧
    twoDayTask.enabled = true ∧
    twoDayTask.start_time = none ∧
    twoDayTask.expires = none ∧
    twoDayTask.one_off = false ∧
    (DatabaseScheduleEntry.init twoDayTask 1000000).is_due 1000000 = (false, 86400) := by
  refine ⟨rfl, rfl, rfl, rfl, rfl, ?_⟩
  norm_num [DatabaseScheduleEntry.init, PeriodicTask.normalizeLastRun, twoDayTask,
    samplePeriodicTask, PeriodicTask.selectSchedule, IntervalSchedule.runEverySeconds,
    Period.unitSeconds, DatabaseScheduleEntry.is_due, DatabaseScheduleEntry.startGate,
    DatabaseScheduleEntry.expiresGate, DatabaseScheduleEntry.oneOffGate,
    DatabaseScheduleEntry.scheduleCheck, CelerySchedule.is_due]

/-- C2 (amended): a Job Entry built from a definition with a null
`last_fired` is treated as having last fired exactly one DAY (86400 s) ago,
so with the gates passing its first `is_due()` is immediately due exactly
for interval schedules whose period is at most one day; for longer
intervals it must first wait out the remainder of the period. -/
theorem null_last_run_treated_as_one_day_ago (m : PeriodicTask) (now : ℚ)
    (i : IntervalSchedule)
    (hnull : m.last_run_at = none)
    (hint : m.interval = some i)
    (hcr : m.crontab = none)
    (hen : m.enabled = true)
    (hst : ∀ st, m.start_time = some st → st ≤ now)
    (hex : ∀ ex, m.expires = some ex → now < ex)
    (hoo : m.one_off = false ∨ m.total_run_count = 0) :
    (DatabaseScheduleEntry.init m now).last_run_at = now - 86400 ∧
    (i.runEverySeconds ≤ 86400 →
      ((DatabaseScheduleEntry.init m now).is_due now).1 = true) ∧
    (86400 < i.runEverySeconds →
      (DatabaseScheduleEntry.init m now).is_due now
        = (false, i.runEverySeconds - 86400)) := by
  have hm' : m.normalizeLastRun now = { m with last_run_at := some (now - 86400) } := by
    rw [PeriodicTask.normalizeLastRun, hnull]
  have htm : (DatabaseScheduleEntry.init m now).task_model
      = { m with last_run_at := some (now - 86400) } := by
    rw [DatabaseScheduleEntry.init]
    simp only [hm']
  have hlast : (DatabaseScheduleEntry.init m now).last_run_at = now - 86400 := by
    rw [DatabaseScheduleEntry.init]
    simp only [hm']
  have hsched : (DatabaseScheduleEntry.init m now).schedule
      = CelerySchedule.interval i.runEverySeconds := by
    rw [DatabaseScheduleEntry.init]
    simp only [hm', PeriodicTask.selectSchedule, hint]
  have hred : (DatabaseScheduleEntry.init m now).is_due now
      = (DatabaseScheduleEntry.init m now).scheduleCheck now := by
    refine gates_pass_is_due _ now (by simp [htm, hen]) ?_ ?_ ?_
    · intro st h; rw [htm] at h; exact hst st h
    · intro ex h; rw [htm] at h; exact hex ex h
    · rw [htm]; exact hoo
  have hsc : (DatabaseScheduleEntry.init m now).scheduleCheck now
      = CelerySchedule.is_due (CelerySchedule.interval i.runEverySeconds) (now - 86400) now := by
    rw [DatabaseScheduleEntry.scheduleCheck]
    rw [if_neg (by simp [htm, hcr])]
    rw [hsched, hlast]
  have harith : now - 86400 + i.runEverySeconds - now = i.runEverySeconds - 86400 := by ring
  refine ⟨hlast, ?_, ?_⟩
  · intro hle
    rw [hred, hsc]
    simp only [CelerySchedule.is_due, harith]
    rw [if_pos (max_eq_right (by linarith))]
  · intro hgt
    rw [hred, hsc]
    simp only [CelerySchedule.is_due, harith]
    rw [max_eq_left (by linarith), if_neg (sub_ne_zero.mpr (ne_of_gt hgt))]

/-- A 10-second interval row with a null `last_run_at`. -/
def tenSecNullTask : PeriodicTask := { samplePeriodicTask with last_run_at := none }

/-- Witness for the amended C2: a 10-second interval job with a null
`last_fired` is immediately due. -/
theorem null_last_run_treated_as_one_day_ago_witness :
    tenSecNullTask.last_run_at = none ∧
    (DatabaseScheduleEntry.init tenSecNullTask 1000).last_run_at = 1000 - 86400 ∧
    ((DatabaseScheduleEntry.init tenSecNullTask 1000).is_due 1000).1 = true := by
  have h := null_last_run_treated_as_one_day_ago tenSecNullTask 1000
    { id := 1, every := 10, period := Period.seconds } rfl rfl rfl rfl
    (by intro st h; cases h) (by intro ex h; cases h) (Or.inl rfl)
  exact ⟨rfl, h.1,
    h.2.1 (by norm_num [IntervalSchedule.runEverySeconds, Period.unitSeconds])⟩

/-- A fresh, never-fired 10-second interval row. -/
def freshTask : PeriodicTask := samplePeriodicTask

/-- Counterexample to C3: calling `__next__` twice on the same entry does
NOT produce two successors each with `total_fire_count` one above the
original's — the shared `task_model` is mutated in place, so the second
successor's count is two above. -/
theorem advance_twice_not_independent :
    ¬ ((DatabaseScheduleEntry.next_step
          (DatabaseScheduleEntry.init freshTask 100).task_model 200).2.total_run_count
        = (DatabaseScheduleEntry.init freshTask 100).total_run_count + 1 ∧
      (DatabaseScheduleEntry.next_step
          (DatabaseScheduleEntry.next_step
            (DatabaseScheduleEntry.init freshTask 100).task_model 200).1 300).2.total_run_count
        = (DatabaseScheduleEntry.init freshTask 100).total_run_count + 1) := by
  rintro ⟨-, h2⟩
  revert h2
  simp [DatabaseScheduleEntry.next_step, DatabaseScheduleEntry.init,
    PeriodicTask.normalizeLastRun, freshTask, samplePeriodicTask]

/-- C3 (amended): `__next__` never reassigns the original entry's own
stored attributes, and each call returns the mutated shared model together
with a successor built from it: the first successor's `total_fire_count` is
the original's plus one, but because the underlying `task_model` object is
shared and mutated in place, a second call on the same entry yields a
successor with the original's count plus two. -/
theorem advance_mutates_shared_model (m : PeriodicTask) (t0 t1 t2 : ℚ) :
    (DatabaseScheduleEntry.init m t0).total_run_count = m.total_run_count ∧
    (DatabaseScheduleEntry.next_step
        (DatabaseScheduleEntry.init m t0).task_model t1).2.total_run_count
      = m.total_run_count + 1 ∧
    (DatabaseScheduleEntry.next_step
        (DatabaseScheduleEntry.next_step
          (DatabaseScheduleEntry.init m t0).task_model t1).1 t2).2.total_run_count
      = m.total_run_count + 2 ∧
    (DatabaseScheduleEntry.next_step
        (DatabaseScheduleEntry.init m t0).task_model t1).1.last_run_at = some t1 ∧
    (DatabaseScheduleEntry.next_step
        (DatabaseScheduleEntry.next_step
          (DatabaseScheduleEntry.init m t0).task_model t1).1 t2).1.last_run_at = some t2 := by
  cases h : m.last_run_at with
  | none =>
    refine ⟨?_, ?_, ?_, ?_, ?_⟩ <;>
      simp [DatabaseScheduleEntry.init, DatabaseScheduleEntry.next_step,
        PeriodicTask.normalizeLastRun, h]
  | some t =>
    refine ⟨?_, ?_, ?_, ?_, ?_⟩ <;>
      simp [DatabaseScheduleEntry.init, DatabaseScheduleEntry.next_step,
        PeriodicTask.normalizeLastRun, h]

/-- C7: an update that changes the referenced interval or crontab schedule
to a different reference resets `last_fired` to null; an update that does
not change the schedule references leaves `last_fired` unchanged. -/
theorem update_schedule_change_resets_last_run (t : PeriodicTask) (u : TaskUpdate) :
    (((∃ v, u.interval_id = some v ∧ v ≠ t.interval_id) ∨
      (∃ v, u.crontab_id = some v ∧ v ≠ t.crontab_id)) →
      (TaskSchedulerService.update_periodic_task t u).last_run_at = none) ∧
    ((∀ v, u.interval_id = some v → v = t.interval_id) →
     (∀ v, u.crontab_id = some v → v = t.crontab_id) →
      (TaskSchedulerService.update_periodic_task t u).last_run_at = t.last_run_at) := by
  constructor
  · rintro (⟨v, hv, hne⟩ | ⟨v, hv, hne⟩) <;>
      simp [TaskSchedulerService.update_periodic_task, hv, hne]
  · intro h1 h2
    cases hiv : u.interval_id with
    | none =>
      cases hcv : u.crontab_id with
      | none => simp [TaskSchedulerService.update_periodic_task, hiv, hcv]
      | some w =>
        simp [TaskSchedulerService.update_periodic_task, hiv, hcv, h2 w hcv]
    | some v =>
      cases hcv : u.crontab_id with
      | none =>
        simp [TaskSchedulerService.update_periodic_task, hiv, hcv, h1 v hiv]
      | some w =>
        simp [TaskSchedulerService.update_periodic_task, hiv, hcv, h1 v hiv, h2 w hcv]

/-- An update that only switches the interval reference from 1 to 2. -/
def switchIntervalUpdate : TaskUpdate :=
  { name := none, task := none, interval_id := some (some 2), crontab_id := none,
    args := none, kwargs := none, queue := none, priority := none, expires := none,
    one_off := none, start_time := none, enabled := none, description := none }

/-- Witness for C7: switching the interval reference of a task with
`interval_id = 1` and a non-null `last_fired` nulls `last_fired`. -/
theorem update_schedule_change_resets_last_run_witness :
    samplePeriodicTask.interval_id = some 1 ∧
    switchIntervalUpdate.interval_id = some (some 2) ∧
    samplePeriodicTask.last_run_at = some 0 ∧
    (TaskSchedulerService.update_periodic_task samplePeriodicTask
      switchIntervalUpdate).last_run_at = none :=
  ⟨rfl, rfl, rfl,
    (update_schedule_change_resets_last_run samplePeriodicTask switchIntervalUpdate).1
      (Or.inl ⟨some 2, rfl, by decide⟩)⟩

/-- Scheduler state with a cached baseline of instant 1 and empty table. -/
def baselineSched : DatabaseScheduler :=
  { sched_table := [], dirty := [], last_timestamp := some 1, initial_read := false }

/-- A store whose change marker was bumped to instant 2. -/
def bumpedDb : Db := { tasks := [], marker := some 2 }

/-- Counterexample to C8: when a change IS detected, `schedule_changed`
leaves the cached baseline untouched instead of updating it to the live
marker value. -/
theorem schedule_changed_keeps_baseline_on_change :
    (baselineSched.schedule_changed bumpedDb).1 = true ∧
    (baselineSched.schedule_changed bumpedDb).2.last_timestamp = some 1 ∧
    bumpedDb.marker = some 2 ∧
    (baselineSched.schedule_changed bumpedDb).2.last_timestamp ≠ bumpedDb.marker := by
  refine ⟨?_, ?_, rfl, ?_⟩ <;>
    norm_num [DatabaseScheduler.schedule_changed, baselineSched, bumpedDb]

/-- C8 (amended): `schedule_changed` compares the live marker against the
cached baseline, but updates the baseline only on calls that report no
change; on a call that detects a change the whole scheduler state (baseline
included) is returned untouched, the baseline being refreshed later by the
reload path. -/
theorem schedule_changed_baseline_semantics (s : DatabaseScheduler) (db : Db) :
    ((s.schedule_changed db).1 = false →
      (s.schedule_changed db).2.last_timestamp = db.marker) ∧
    ((s.schedule_changed db).1 = true → (s.schedule_changed db).2 = s) := by
  cases hm : db.marker with
  | none =>
    cases hb : s.last_timestamp <;> simp [DatabaseScheduler.schedule_changed, hm]
  | some t =>
    cases hb : s.last_timestamp with
    | none => simp [DatabaseScheduler.schedule_changed, hm, hb]
    | some base =>
      by_cases hlt : base < t <;>
        simp [DatabaseScheduler.schedule_changed, hm, hb, hlt]

/-- Scheduler state whose cached baseline equals the live marker. -/
def steadySched : DatabaseScheduler :=
  { sched_table := [], dirty := [], last_timestamp := some 2, initial_read := false }

/-- Witness for the amended C8: on a no-change call the baseline is
refreshed to the live marker. -/
theorem schedule_changed_baseline_semantics_witness :
    (steadySched.schedule_changed bumpedDb).1 = false ∧
    (steadySched.schedule_changed bumpedDb).2.last_timestamp = bumpedDb.marker :=
  ⟨by norm_num [DatabaseScheduler.schedule_changed, steadySched, bumpedDb],
    (schedule_changed_baseline_semantics steadySched bumpedDb).1
      (by norm_num [DatabaseScheduler.schedule_changed, steadySched, bumpedDb])⟩

/-- After `updateFirst p g`, looking up with `p` finds the `g`-image of the
previous hit, provided `g` preserves satisfaction of `p`. -/
lemma find?_updateFirst_self (p : α → Bool) (g : α → α) (l : List α)
    (hg : ∀ a, p a = true → p (g a) = true) :
    (updateFirst p g l).find? p = (l.find? p).map g := by
  induction l with
  | nil => rfl
  | cons x xs ih =>
    by_cases hx : p x = true
    · have h1 : updateFirst p g (x :: xs) = g x :: xs := by
        rw [updateFirst, if_pos hx]
      rw [h1, List.find?_cons_of_pos _ (hg x hx), List.find?_cons_of_pos _ hx]
      rfl
    · have h1 : updateFirst p g (x :: xs) = x :: updateFirst p g xs := by
        rw [updateFirst, if_neg hx]
      rw [h1, List.find?_cons_of_neg _ hx, List.find?_cons_of_neg _ hx, ih]

/-- `updateFirst p g` does not disturb lookups with a predicate `q` that is
disjoint from `p` (also after applying `g`). -/
lemma find?_updateFirst_of_disjoint (p q : α → Bool) (g : α → α) (l : List α)
    (hpq : ∀ a, p a = true → q a = false)
    (hgq : ∀ a, p a = true → q (g a) = false) :
    (updateFirst p g l).find? q = l.find? q := by
  induction l with
  | nil => rfl
  | cons x xs ih =>
    by_cases hx : p x = true
    · have h1 : updateFirst p g (x :: xs) = g x :: xs := by
        rw [updateFirst, if_pos hx]
      rw [h1, List.find?_cons_of_neg _ (by simp [hgq x hx]),
        List.find?_cons_of_neg _ (by simp [hpq x hx])]
    · have h1 : updateFirst p g (x :: xs) = x :: updateFirst p g xs := by
        rw [updateFirst, if_neg hx]
      rw [h1]
      by_cases hq : q x = true
      · rw [List.find?_cons_of_pos _ hq, List.find?_cons_of_pos _ hq]
      · rw [List.find?_cons_of_neg _ hq, List.find?_cons_of_neg _ hq, ih]

/-- When the first list has no hit, searching the concatenation searches the
second list. -/
lemma find?_append_of_none (l₁ l₂ : List α) (p : α → Bool)
    (h : l₁.find? p = none) :
    (l₁ ++ l₂).find? p = l₂.find? p := by
  induction l₁ with
  | nil => rfl
  | cons x xs ih =>
    have hx : ¬ p x = true := by
      intro hx
      rw [List.find?_cons_of_pos _ hx] at h
      cases h
    rw [List.cons_append, List.find?_cons_of_neg _ hx]
    exact ih (by rwa [List.find?_cons_of_neg _ hx] at h)

/-- A run record currently in the non-terminal STARTED state. -/
def startedResultRow : TaskResult :=
  { task_id := "t1", task_name := some "job", task_args := none, task_kwargs := none,
    status := "STARTED", result := none, traceback := none, date_created := 0,
    date_done := none, worker := none }

/-- Counterexample to C9: updating an existing run record into the terminal
REVOKED state through the service's result-saving operation does NOT set
the completion timestamp. -/
theorem save_task_result_revoked_misses_date_done :
    (findResult (TaskSchedulerService.save_task_result [startedResultRow] "t1" "job"
        "REVOKED" none none none none none 100) "t1").map
      (fun r => (r.status, r.date_done)) = some ("REVOKED", none) := by
  rfl

/-- C9 (amended): through the service's result-saving operation the
completion timestamp is set exactly when an already-existing record's
status is updated to SUCCESS or FAILURE; a record created by the same call
never gets a completion timestamp (whatever its status), an update to any
other status (REVOKED included) leaves the previous timestamp value
untouched. -/
theorem save_task_result_date_done_semantics (rows : List TaskResult)
    (tid tname status : String)
    (result traceback args kwargs worker : Option String) (now : ℚ) :
    (findResult rows tid = none →
      (findResult (TaskSchedulerService.save_task_result rows tid tname status
          result traceback args kwargs worker now) tid).map
        (fun r => (r.status, r.date_done)) = some (status, none)) ∧
    (∀ r0, findResult rows tid = some r0 →
      (findResult (TaskSchedulerService.save_task_result rows tid tname status
          result traceback args kwargs worker now) tid).map
        (fun r => (r.status, r.date_done))
      = some (status,
          if status = "SUCCESS" ∨ status = "FAILURE" then some now
          else r0.date_done)) := by
  constructor
  · intro h
    rw [TaskSchedulerService.save_task_result, h]
    rw [findResult, find?_append_of_none _ _ _ h]
    rw [List.find?_cons_of_pos _ (by simp)]
    rfl
  · intro r0 h
    rw [TaskSchedulerService.save_task_result, h, findResult]
    have hg : ∀ r : TaskResult, (fun r => decide (r.task_id = tid)) r = true →
        (fun r => decide (r.task_id = tid))
          ((fun r =>
            let r' := { r with status := status, result := result, traceback := traceback }
            if status = "SUCCESS" ∨ status = "FAILURE" then
              { r' with date_done := some now }
            else r') r) = true := by
      intro r hr
      by_cases ht : status = "SUCCESS" ∨ status = "FAILURE" <;> simp_all
    rw [find?_updateFirst_self _ _ _ hg]
    rw [show rows.find? (fun r => decide (r.task_id = tid)) = some r0 from h]
    by_cases ht : status = "SUCCESS" ∨ status = "FAILURE" <;> simp [ht]

/-- A task row named "a" whose stored run statistics are stale (count 0). -/
def taskARow : PeriodicTask := { samplePeriodicTask with name := "a" }

/-- A task row named "b" whose stored run statistics are stale (count 0). -/
def taskBRow : PeriodicTask := { samplePeriodicTask with name := "b" }

/-- In-memory entry for "a" carrying fresh run statistics (count 1). -/
def entryA : DatabaseScheduleEntry :=
  DatabaseScheduleEntry.init
    { taskARow with last_run_at := some 60, total_run_count := 1 } 60

/-- In-memory entry for "b" carrying fresh run statistics (count 1). -/
def entryB : DatabaseScheduleEntry :=
  DatabaseScheduleEntry.init
    { taskBRow with last_run_at := some 60, total_run_count := 1 } 60

/-- Scheduler state with both entries dirty ("a" popped first). -/
def dirtySched : DatabaseScheduler :=
  { sched_table := [("a", entryA), ("b", entryB)], dirty := ["a", "b"],
    last_timestamp := some 1, initial_read := false }

/-- Store holding the two stale rows. -/
def twoTaskDb : Db := { tasks := [taskARow, taskBRow], marker := some 1 }

/-- Write-failure oracle: exactly the DB write for row "a" fails (and is
swallowed inside `_save_entry`). -/
def writeFailsA : String → Bool := fun n => n = "a"

/-- A failure oracle under which nothing fails. -/
def noFails : String → Bool := fun _ => false

/-- Counterexample to C5: with dirty = {a, b} and the DB write for "a"
failing, the failure is caught and swallowed inside `_save_entry`, so the
sync pass drains the whole dirty set: "a" is NOT left in the dirty set for
a retry — its run-statistics update is silently lost (the stored row keeps
count 0 while the in-memory entry holds count 1). The remaining entry "b"
is still synced in the same pass. -/
theorem sync_write_failure_drops_name :
    writeFailsA "a" = true ∧
    "a" ∈ dirtySched.dirty ∧
    (DatabaseScheduler.sync writeFailsA noFails dirtySched twoTaskDb).1.dirty = [] ∧
    "a" ∉ (DatabaseScheduler.sync writeFailsA noFails dirtySched twoTaskDb).1.dirty ∧
    ((DatabaseScheduler.sync writeFailsA noFails dirtySched twoTaskDb).2.lookup "a").map
      (fun t => t.total_run_count) = some 0 ∧
    (tableGet dirtySched.sched_table "a").map
      (fun e => e.task_model.total_run_count) = some 1 ∧
    ((DatabaseScheduler.sync writeFailsA noFails dirtySched twoTaskDb).2.lookup "b").map
      (fun t => t.total_run_count) = some 1 := by
  have hdrain : (DatabaseScheduler.sync writeFailsA noFails dirtySched twoTaskDb).1.dirty
      = [] := rfl
  refine ⟨rfl, by simp [dirtySched], hdrain, ?_, rfl, rfl, rfl⟩
  rw [hdrain]
  exact List.not_mem_nil _

/-- Well-formedness of the in-memory table: every entry is stored under its
own name (as `_load_entries_from_db` and `reserve` guarantee). -/
def tableWF (tbl : List (String × DatabaseScheduleEntry)) : Prop :=
  ∀ p ∈ tbl, (Prod.snd p).name = p.1

/-- In a well-formed table, a hit for key `n` is an entry named `n`. -/
lemma tableGet_name (tbl : List (String × DatabaseScheduleEntry)) (n : String)
    (e : DatabaseScheduleEntry) (hwf : tableWF tbl) (h : tableGet tbl n = some e) :
    e.name = n := by
  rw [tableGet] at h
  cases hf : tbl.find? (fun p => p.1 = n) with
  | none => rw [hf] at h; cases h
  | some p =>
    rw [hf] at h
    have hpe : p.2 = e := by simpa using h
    have h1 : p.1 = n := by simpa using List.find?_some hf
    have h2 := hwf p (List.mem_of_find?_eq_some hf)
    rw [← hpe, h2, h1]

/-- A write failure swallowed inside `_save_entry` leaves the store
entirely unchanged. -/
lemma save_entry_write_fail (writeFails : String → Bool) (db : Db)
    (e : DatabaseScheduleEntry) (hw : writeFails e.name = true) :
    Db.save_entry writeFails db e = db := by
  rw [Db.save_entry, if_pos hw]

/-- A successful save updates the looked-up row's run statistics. -/
lemma lookup_save_entry_self (writeFails : String → Bool) (db : Db)
    (e : DatabaseScheduleEntry) (t : PeriodicTask)
    (hw : writeFails e.name = false)
    (ht : db.lookup e.name = some t) :
    (Db.save_entry writeFails db e).lookup e.name
      = some { t with last_run_at := e.task_model.last_run_at,
                      total_run_count := e.task_model.total_run_count } := by
  rw [Db.lookup] at ht
  rw [Db.save_entry, if_neg (by simp [hw]), Db.lookup]
  rw [find?_updateFirst_self _ _ _ (fun a ha => by simpa using ha), ht]
  rfl

/-- Saving an entry (successfully or not) leaves rows with other names
untouched. -/
lemma lookup_save_entry_other (writeFails : String → Bool) (db : Db)
    (e : DatabaseScheduleEntry) (n : String)
    (hne : ¬ e.name = n) :
    (Db.save_entry writeFails db e).lookup n = db.lookup n := by
  by_cases hw : writeFails e.name = true
  · rw [save_entry_write_fail writeFails db e hw]
  · rw [Db.save_entry, if_neg hw, Db.lookup, Db.lookup]
    refine find?_updateFirst_of_disjoint _ _ _ _ ?_ ?_
    · intro a ha
      have h1 : a.name = e.name := by simpa using ha
      simp [h1, hne]
    · intro a ha
      have h1 : a.name = e.name := by simpa using ha
      simp [h1, hne]

/-- A sync pass never touches rows whose name is not in the processed
dirty list. -/
lemma syncLoop_lookup_of_not_mem (writeFails loopFails : String → Bool)
    (tbl : List (String × DatabaseScheduleEntry)) (hwf : tableWF tbl) :
    ∀ (names : List String) (db : Db) (n : String), n ∉ names →
      (syncLoop writeFails loopFails tbl names db).2.lookup n = db.lookup n := by
  intro names
  induction names with
  | nil => intro db n _; rfl
  | cons m rest ih =>
    intro db n hn
    have hmn : ¬ (m = n) := fun h => hn (h ▸ List.mem_cons_self m rest)
    have hrest : n ∉ rest := fun h => hn (List.mem_cons_of_mem m h)
    cases hge : tableGet tbl m with
    | none =>
      simp only [syncLoop, hge]
      exact ih db n hrest
    | some e =>
      by_cases hf : loopFails m = true
      · simp only [syncLoop, hge, if_pos hf]
      · simp only [syncLoop, hge, if_neg hf]
        rw [ih (Db.save_entry writeFails db e) n hrest]
        exact lookup_save_entry_other writeFails db e n
          (by rw [tableGet_name tbl m e hwf hge]; exact hmn)

/-- As long as no save call raises into `sync` itself, the pass drains the
whole dirty list — names whose writes failed inside `_save_entry`
included. -/
lemma syncLoop_drains (writeFails loopFails : String → Bool)
    (tbl : List (String × DatabaseScheduleEntry)) :
    ∀ (names : List String) (db : Db),
      (∀ m ∈ names, loopFails m = false) →
      (syncLoop writeFails loopFails tbl names db).1 = [] := by
  intro names
  induction names with
  | nil => intro db _; rfl
  | cons m rest ih =>
    intro db hnl
    have hnl' : ∀ m' ∈ rest, loopFails m' = false :=
      fun m' h => hnl m' (List.mem_cons_of_mem m h)
    cases hge : tableGet tbl m with
    | none =>
      simp only [syncLoop, hge]
      exact ih db hnl'
    | some e =>
      have hf : ¬ (loopFails m = true) := by
        rw [hnl m (List.mem_cons_self m rest)]
        exact Bool.false_ne_true
      simp only [syncLoop, hge, if_neg hf]
      exact ih _ hnl'

/-- A dirty name whose write fails inside `_save_entry` keeps its stored
row unchanged across the pass (the update is lost, not retried). -/
lemma syncLoop_write_fail_preserved (writeFails loopFails : String → Bool)
    (tbl : List (String × DatabaseScheduleEntry)) (hwf : tableWF tbl) :
    ∀ (names : List String) (db : Db) (n : String),
      (∀ m ∈ names, loopFails m = false) → names.Nodup → n ∈ names →
      writeFails n = true →
      (syncLoop writeFails loopFails tbl names db).2.lookup n = db.lookup n := by
  intro names
  induction names with
  | nil => intro db n _ _ hn _; cases hn
  | cons m rest ih =>
    intro db n hnl hnd hn hwn
    rcases List.mem_cons.1 hn with rfl | hnr
    · have hnotin : n ∉ rest := (List.nodup_cons.1 hnd).1
      cases hge : tableGet tbl n with
      | none =>
        simp only [syncLoop, hge]
        exact syncLoop_lookup_of_not_mem writeFails loopFails tbl hwf rest db n hnotin
      | some e =>
        have hf : ¬ (loopFails n = true) := by
          rw [hnl n (List.mem_cons_self n rest)]
          exact Bool.false_ne_true
        simp only [syncLoop, hge, if_neg hf]
        rw [syncLoop_lookup_of_not_mem writeFails loopFails tbl hwf rest _ n hnotin]
        rw [save_entry_write_fail writeFails db e
          (by rw [tableGet_name tbl n e hwf hge]; exact hwn)]
    · have hm : ¬ (m = n) := by
        rintro rfl
        exact (List.nodup_cons.1 hnd).1 hnr
      have hnl' : ∀ m' ∈ rest, loopFails m' = false :=
        fun m' h => hnl m' (List.mem_cons_of_mem m h)
      have hnd' : rest.Nodup := (List.nodup_cons.1 hnd).2
      cases hge : tableGet tbl m with
      | none =>
        simp only [syncLoop, hge]
        exact ih db n hnl' hnd' hnr hwn
      | some em =>
        have hf : ¬ (loopFails m = true) := by
          rw [hnl m (List.mem_cons_self m rest)]
          exact Bool.false_ne_true
        simp only [syncLoop, hge, if_neg hf]
        rw [ih (Db.save_entry writeFails db em) n hnl' hnd' hnr hwn]
        exact lookup_save_entry_other writeFails db em n
          (by rw [tableGet_name tbl m em hwf hge]; exact hm)

/-- A pass with no exception raising into `sync` persists the run
statistics of every dirty entry whose write succeeds, other entries'
write failures notwithstanding. -/
lemma syncLoop_flushes (writeFails loopFails : String → Bool)
    (tbl : List (String × DatabaseScheduleEntry)) (hwf : tableWF tbl) :
    ∀ (names : List String) (db : Db) (n : String) (e : DatabaseScheduleEntry)
      (t : PeriodicTask),
      (∀ m ∈ names, loopFails m = false) → names.Nodup → n ∈ names →
      writeFails n = false →
      tableGet tbl n = some e → db.lookup n = some t →
      (syncLoop writeFails loopFails tbl names db).2.lookup n
        = some { t with last_run_at := e.task_model.last_run_at,
                        total_run_count := e.task_model.total_run_count } := by
  intro names
  induction names with
  | nil => intro db n e t _ _ hn _ _ _; cases hn
  | cons m rest ih =>
    intro db n e t hnl hnd hn hwn hge ht
    rcases List.mem_cons.1 hn with rfl | hnr
    · have hf : ¬ (loopFails n = true) := by
        rw [hnl n (List.mem_cons_self n rest)]
        exact Bool.false_ne_true
      simp only [syncLoop, hge, if_neg hf]
      have hnotin : n ∉ rest := (List.nodup_cons.1 hnd).1
      rw [syncLoop_lookup_of_not_mem writeFails loopFails tbl hwf rest _ n hnotin]
      have hname : e.name = n := tableGet_name tbl n e hwf hge
      rw [← hname] at ht ⊢
      exact lookup_save_entry_self writeFails db e t (by rw [hname]; exact hwn) ht
    · have hm : ¬ (m = n) := by
        rintro rfl
        exact (List.nodup_cons.1 hnd).1 hnr
      have hnl' : ∀ m' ∈ rest, loopFails m' = false :=
        fun m' hm' => hnl m' (List.mem_cons_of_mem m hm')
      have hnd' : rest.Nodup := (List.nodup_cons.1 hnd).2
      cases hge' : tableGet tbl m with
      | none =>
        simp only [syncLoop, hge']
        exact ih db n e t hnl' hnd' hnr hwn hge ht
      | some em =>
        have hf : ¬ (loopFails m = true) := by
          rw [hnl m (List.mem_cons_self m rest)]
          exact Bool.false_ne_true
        simp only [syncLoop, hge', if_neg hf]
        refine ih (Db.save_entry writeFails db em) n e t hnl' hnd' hnr hwn hge ?_
        rw [lookup_save_entry_other writeFails db em n
          (by rw [tableGet_name tbl m em hwf hge']; exact hm)]
        exact ht

/-- C5 (amended): a DB write failure for one dirty entry is caught and
logged inside the save helper, so it does not prevent the remaining dirty
entries from being synced in the same pass — but the failed entry's name is
NOT left in the dirty set for a retry: the pass drains the whole set, the
failed entry's stored row keeps its stale values and the lost update is
never retried. (Only an exception escaping the save helper, such as a
connection-initialisation or event-loop failure, re-adds the name and
aborts the pass.) -/
theorem sync_write_failure_semantics (writeFails loopFails : String → Bool)
    (tbl : List (String × DatabaseScheduleEntry)) (names : List String) (db : Db)
    (hwf : tableWF tbl)
    (hnl : ∀ m ∈ names, loopFails m = false)
    (hnd : names.Nodup) :
    (syncLoop writeFails loopFails tbl names db).1 = [] ∧
    (∀ n ∈ names, writeFails n = true →
      (syncLoop writeFails loopFails tbl names db).2.lookup n = db.lookup n) ∧
    (∀ n e t, n ∈ names → writeFails n = false →
      tableGet tbl n = some e → db.lookup n = some t →
      (syncLoop writeFails loopFails tbl names db).2.lookup n
        = some { t with last_run_at := e.task_model.last_run_at,
                        total_run_count := e.task_model.total_run_count }) :=
  ⟨syncLoop_drains writeFails loopFails tbl names db hnl,
    fun n hn hw =>
      syncLoop_write_fail_preserved writeFails loopFails tbl hwf names db n hnl hnd hn hw,
    fun n e t hn hw hge ht =>
      syncLoop_flushes writeFails loopFails tbl hwf names db n e t hnl hnd hn hw hge ht⟩

/-- Witness for the amended C5 at the concrete two-entry state: the
write of "a" fails and its row keeps the stale stats, yet "b" is synced in
the same pass and the dirty set is drained. -/
theorem sync_write_failure_semantics_witness :
    (∀ m ∈ ["a", "b"], noFails m = false) ∧
    writeFailsA "a" = true ∧
    writeFailsA "b" = false ∧
    (syncLoop writeFailsA noFails dirtySched.sched_table ["a", "b"] twoTaskDb).1 = [] ∧
    (syncLoop writeFailsA noFails dirtySched.sched_table ["a", "b"] twoTaskDb).2.lookup "a"
      = twoTaskDb.lookup "a" ∧
    (syncLoop writeFailsA noFails dirtySched.sched_table ["a", "b"] twoTaskDb).2.lookup "b"
      = some { taskBRow with
               last_run_at := entryB.task_model.last_run_at,
               total_run_count := entryB.task_model.total_run_count } := by
  have h := sync_write_failure_semantics writeFailsA noFails dirtySched.sched_table
    ["a", "b"] twoTaskDb
    (by
      intro p hp
      have hor : p = ("a", entryA) ∨ p = ("b", entryB) := by
        simpa [dirtySched] using hp
      rcases hor with rfl | rfl <;> rfl)
    (by intro m _; rfl)
    (by decide)
  exact ⟨by intro m _; rfl, rfl, rfl, h.1,
    h.2.1 "a" (by decide) rfl,
    h.2.2 "b" entryB taskBRow (by decide) rfl rfl rfl⟩

/-- On a change-detecting call, `schedule_changed` returns the state
untouched. -/
lemma schedule_changed_true_fix (s : DatabaseScheduler) (db : Db)
    (h : (s.schedule_changed db).1 = true) : (s.schedule_changed db).2 = s := by
  cases hm : db.marker with
  | none => simp [DatabaseScheduler.schedule_changed, hm] at h
  | some t =>
    cases hb : s.last_timestamp with
    | none => simp [DatabaseScheduler.schedule_changed, hm, hb] at h
    | some base =>
      by_cases hlt : base < t
      · simp [DatabaseScheduler.schedule_changed, hm, hb, hlt]
      · simp [DatabaseScheduler.schedule_changed, hm, hb, hlt] at h

/-- C4: whenever the schedule property performs a reload (first read or
change detected), it flushes the dirty set to persistence first and only
then rebuilds the table from the synced store — so (absent write failures)
no in-memory run-statistics update recorded before the reload is lost by
the reload. -/
theorem reload_syncs_dirty_before_rebuild (writeFails loopFails : String → Bool)
    (now : ℚ)
    (s : DatabaseScheduler) (db : Db) (n : String)
    (e : DatabaseScheduleEntry) (t : PeriodicTask)
    (hwf : tableWF s.sched_table)
    (hnd : s.dirty.Nodup)
    (hnf : ∀ m ∈ s.dirty, writeFails m = false)
    (hnl : ∀ m ∈ s.dirty, loopFails m = false)
    (hupd : s.initial_read = true ∨ (s.schedule_changed db).1 = true)
    (hn : n ∈ s.dirty)
    (hge : tableGet s.sched_table n = some e)
    (ht : db.lookup n = some t) :
    (((s.schedule_property writeFails loopFails now db).2.lookup n).map
        (fun r => (r.last_run_at, r.total_run_count)))
      = some (e.task_model.last_run_at, e.task_model.total_run_count) ∧
    (s.schedule_property writeFails loopFails now db).1.sched_table
      = ((s.schedule_property writeFails loopFails now db).2).load_entries now := by
  have hflush := syncLoop_flushes writeFails loopFails s.sched_table hwf s.dirty db
    n e t hnl hnd hn (hnf n hn) hge ht
  have hprop : s.schedule_property writeFails loopFails now db
      = ({ sched_table :=
             (syncLoop writeFails loopFails s.sched_table s.dirty db).2.load_entries now,
           dirty := (syncLoop writeFails loopFails s.sched_table s.dirty db).1,
           last_timestamp := (syncLoop writeFails loopFails s.sched_table s.dirty db).2.marker,
           initial_read := false },
         (syncLoop writeFails loopFails s.sched_table s.dirty db).2) := by
    by_cases hinit : s.initial_read = true
    · simp [DatabaseScheduler.schedule_property, hinit, DatabaseScheduler.sync]
    · have hinit' : s.initial_read = false := by
        revert hinit
        cases s.initial_read <;> simp
      have hch : (s.schedule_changed db).1 = true := by
        rcases hupd with h | h
        · exact absurd h hinit
        · exact h
      have hfix := schedule_changed_true_fix s db hch
      simp [DatabaseScheduler.schedule_property, hinit', hch, hfix,
        DatabaseScheduler.sync]
  rw [hprop, hflush]
  exact ⟨rfl, rfl⟩

/-- Scheduler state on its first read with "a" dirty. -/
def reloadSched : DatabaseScheduler :=
  { sched_table := [("a", entryA)], dirty := ["a"],
    last_timestamp := none, initial_read := true }

/-- Store holding only the stale "a" row, marker at 3. -/
def reloadDb : Db := { tasks := [taskARow], marker := some 3 }

/-- Witness for C4: the first read flushes the dirty entry "a" (fresh stats
last fired 60, count 1) into the store before rebuilding the table. -/
theorem reload_syncs_dirty_before_rebuild_witness :
    "a" ∈ reloadSched.dirty ∧ reloadSched.initial_read = true ∧
    (((reloadSched.schedule_property noFails noFails 70 reloadDb).2.lookup "a").map
        (fun r => (r.last_run_at, r.total_run_count))) = some (some 60, 1) ∧
    (reloadSched.schedule_property noFails noFails 70 reloadDb).1.sched_table
      = ((reloadSched.schedule_property noFails noFails 70 reloadDb).2).load_entries 70 := by
  have h := reload_syncs_dirty_before_rebuild noFails noFails 70 reloadSched reloadDb "a"
    entryA taskARow
    (by intro p hp; rcases List.mem_singleton.1 hp with rfl; rfl)
    (by simp [reloadSched])
    (by intro m _; rfl)
    (by intro m _; rfl)
    (Or.inl rfl)
    (List.mem_singleton.2 rfl)
    rfl
    rfl
  exact ⟨List.mem_singleton.2 rfl, rfl, h.1, h.2⟩

/-- Witness for the amended C9: updating the STARTED record to SUCCESS sets
the completion timestamp. -/
theorem save_task_result_date_done_semantics_witness :
    findResult [startedResultRow] "t1" = some startedResultRow ∧
    (findResult (TaskSchedulerService.save_task_result [startedResultRow] "t1" "job"
        "SUCCESS" none none none none none 100) "t1").map
      (fun r => (r.status, r.date_done))
    = some ("SUCCESS",
        if ("SUCCESS" : String) = "SUCCESS" ∨ ("SUCCESS" : String) = "FAILURE" then
          some 100
        else startedResultRow.date_done) :=
  ⟨rfl,
    (save_task_result_date_done_semantics [startedResultRow] "t1" "job" "SUCCESS"
        none none none none none 100).2 startedResultRow rfl⟩
